import Mathlib

/-!
Verification of the python-styx repository: a shallow embedding of the
Styx (9P2000) message codec (src/styx.py), the session engine
(src/styxserver.py), the dictionary store (src/dictserver.py) and the
client's fid allocator (src/client.py), with theorems settling the
frozen claims about them.

Bytes are modelled as natural numbers (each produced value is < 256 by
construction); byte strings are lists of such numbers.  Python unicode
strings that travel on the wire are modelled by their UTF-8 byte
sequences.  A stream is a list of bytes consumed from the front;
`recv n` on a socket that eventually delivers the bytes is modelled by
taking `n` bytes when available and failing otherwise.
-/

namespace Styx

/-- struct.pack "<B": one little-endian byte. -/
def put8 (n : Nat) : List Nat := [n % 256]

/-- struct.pack "<H": two little-endian bytes. -/
def put16 (n : Nat) : List Nat := [n % 256, n / 256 % 256]

/-- struct.pack "<I": four little-endian bytes. -/
def put32 (n : Nat) : List Nat :=
  [n % 256, n / 256 % 256, n / 65536 % 256, n / 16777216 % 256]

/-- struct.pack "<Q": eight little-endian bytes. -/
def put64 (n : Nat) : List Nat :=
  [n % 256, n / 256 % 256, n / 65536 % 256, n / 16777216 % 256,
   n / 4294967296 % 256, n / 1099511627776 % 256,
   n / 281474976710656 % 256, n / 72057594037927936 % 256]

/-- struct.unpack "<B" on the front of the stream. -/
def get8 : List Nat → Option (Nat × List Nat)
  | b :: r => some (b, r)
  | [] => none

/-- struct.unpack "<H" on the front of the stream. -/
def get16 : List Nat → Option (Nat × List Nat)
  | b0 :: b1 :: r => some (b0 + 256 * b1, r)
  | _ => none

/-- struct.unpack "<I" on the front of the stream. -/
def get32 : List Nat → Option (Nat × List Nat)
  | b0 :: b1 :: b2 :: b3 :: r =>
      some (b0 + 256 * b1 + 65536 * b2 + 16777216 * b3, r)
  | _ => none

/-- struct.unpack "<Q" on the front of the stream. -/
def get64 : List Nat → Option (Nat × List Nat)
  | b0 :: b1 :: b2 :: b3 :: b4 :: b5 :: b6 :: b7 :: r =>
      some (b0 + 256 * b1 + 65536 * b2 + 16777216 * b3 +
            4294967296 * b4 + 1099511627776 * b5 +
            281474976710656 * b6 + 72057594037927936 * b7, r)
  | _ => none

/-- stream.recv n: take n bytes from the front when available. -/
def takeBytes (n : Nat) (l : List Nat) : Option (List Nat × List Nat) :=
  if n ≤ l.length then some (l.take n, l.drop n) else none

/-- encode_string from styx.py: 16-bit length prefix + UTF-8 bytes. -/
def encode_string (s : List Nat) : List Nat := put16 s.length ++ s

/-- decode_string from styx.py: read a 16-bit length, then that many bytes. -/
def decode_string (l : List Nat) : Option (List Nat × List Nat) := do
  let (n, l) ← get16 l
  takeBytes n l

/-- encode_data from styx.py: 16-bit count prefix + raw bytes. -/
def encode_data (d : List Nat) : List Nat := put16 d.length ++ d

/-- decode_data from styx.py: read a 16-bit count, then that many bytes. -/
def decode_data (l : List Nat) : Option (List Nat × List Nat) := do
  let (n, l) ← get16 l
  takeBytes n l


/-- qid as stored by the codec: the tuple unpacked by struct "<BIQ"
(file/dir type byte, qid version, qid path). -/
structure Qid where
  qtype : Nat
  qversion : Nat
  qpath : Nat
deriving DecidableEq, Repr

/-- encode_qid from styx.py: struct.pack "<BIQ". -/
def encode_qid (q : Qid) : List Nat :=
  put8 q.qtype ++ put32 q.qversion ++ put64 q.qpath

/-- decode_qid from styx.py: struct.unpack "<BIQ" of 13 bytes. -/
def decode_qid (l : List Nat) : Option (Qid × List Nat) := do
  let (t, l) ← get8 l
  let (v, l) ← get32 l
  let (p, l) ← get64 l
  some (⟨t, v, p⟩, l)

/-- Field bounds under which struct.pack "<BIQ" accepts the qid. -/
def ValidQid (q : Qid) : Prop :=
  q.qtype < 256 ∧ q.qversion < 4294967296 ∧ q.qpath < 18446744073709551616

instance (q : Qid) : Decidable (ValidQid q) := by
  unfold ValidQid; infer_instance
/-- Stat from styx.py: the self-describing directory-entry record.
The decoded leading 16-bit size is not a field of a constructed Stat
object; it is read and discarded by the decoder model. -/
structure Stat where
  type : Nat
  dev : Nat
  qid : Qid
  mode : Nat
  atime : Nat
  mtime : Nat
  length : Nat
  name : List Nat
  uid : List Nat
  gid : List Nat
  muid : List Nat
deriving DecidableEq, Repr

namespace Stat

/-- The DMDIR mode bit. -/
def DMDIR : Nat := 0x80000000
/-- The DMAPPEND mode bit. -/
def DMAPPEND : Nat := 0x40000000
/-- The DMEXCL mode bit. -/
def DMEXCL : Nat := 0x20000000
/-- The DMTMP mode bit. -/
def DMTMP : Nat := 0x04000000

/-- The packed fields of Stat.encode before the size prefix:
struct.pack "<HIBIQIIIQ" followed by the four length-prefixed strings. -/
def encodeFields (s : Stat) : List Nat :=
  put16 s.type ++ put32 s.dev ++ encode_qid s.qid ++ put32 s.mode ++
  put32 s.atime ++ put32 s.mtime ++ put64 s.length ++
  encode_string s.name ++ encode_string s.uid ++ encode_string s.gid ++
  encode_string s.muid

/-- Stat.encode from styx.py: the packed fields preceded by their
16-bit size (encode_data). -/
def encode (s : Stat) : List Nat := encode_data (encodeFields s)

/-- Stat.decode via decode_format over Stat.format: reads the 16-bit
size (kept only on the python object), then each field in order. -/
def decode (l : List Nat) : Option (Stat × List Nat) := do
  let (_, l) ← get16 l
  let (ty, l) ← get16 l
  let (dev, l) ← get32 l
  let (qid, l) ← decode_qid l
  let (mode, l) ← get32 l
  let (atime, l) ← get32 l
  let (mtime, l) ← get32 l
  let (len, l) ← get64 l
  let (name, l) ← decode_string l
  let (uid, l) ← decode_string l
  let (gid, l) ← decode_string l
  let (muid, l) ← decode_string l
  some (⟨ty, dev, qid, mode, atime, mtime, len, name, uid, gid, muid⟩, l)

/-- Field bounds under which struct.pack accepts every numeric field
and each string's 16-bit length prefix is exact. -/
def Valid (s : Stat) : Prop :=
  s.type < 65536 ∧ s.dev < 4294967296 ∧ ValidQid s.qid ∧
  s.mode < 4294967296 ∧ s.atime < 4294967296 ∧ s.mtime < 4294967296 ∧
  s.length < 18446744073709551616 ∧ s.name.length < 65536 ∧
  s.uid.length < 65536 ∧ s.gid.length < 65536 ∧ s.muid.length < 65536

instance (s : Stat) : Decidable (Valid s) := by
  unfold Valid; infer_instance

end Stat

/-- Encode a list of walk names as Twalk.encode does: each name appended
as a length-prefixed string after the fixed fields. -/
def encodeStrings : List (List Nat) → List Nat
  | [] => []
  | s :: ss => encode_string s ++ encodeStrings ss

/-- Decode n walk names in order, as Twalk.decode's loop does. -/
def decodeStrings : Nat → List Nat → Option (List (List Nat) × List Nat)
  | 0, l => some ([], l)
  | n + 1, l => do
    let (s, l) ← decode_string l
    let (ss, l) ← decodeStrings n l
    some (s :: ss, l)

/-- Encode a list of qids as Rwalk.encode does. -/
def encodeQids : List Qid → List Nat
  | [] => []
  | q :: qs => encode_qid q ++ encodeQids qs

/-- Decode n qids in order, as Rwalk.decode's loop does. -/
def decodeQids : Nat → List Nat → Option (List Qid × List Nat)
  | 0, l => some ([], l)
  | n + 1, l => do
    let (q, l) ← decode_qid l
    let (qs, l) ← decodeQids n l
    some (q :: qs, l)

/-- NOFID from styx.py (Tattach.NOFID). -/
def NOFID : Nat := 0xffffffff

/-- The message variants registered in styx.py's MessageTypes table.
Tauth/Rauth, Terror, Tflush/Rflush, and Twstat/Rwstat have no classes in
styx.py (they are commented out of the table), so they are not variants
of this type.  Fields follow each class's constructor; derived count
fields (nwname, nwqid, count) are recomputed on encode from the lists
they describe, so they are not separate fields here. -/
inductive StyxMsg where
  | Tversion (tag msize : Nat) (version : List Nat)
  | Rversion (tag msize : Nat) (version : List Nat)
  | Tattach (tag fid afid : Nat) (uname aname : List Nat)
  | Rattach (tag : Nat) (qid : Qid)
  | Rerror (tag : Nat) (ename : List Nat)
  | Twalk (tag fid newfid : Nat) (wname : List (List Nat))
  | Rwalk (tag : Nat) (wqid : List Qid)
  | Topen (tag fid mode : Nat)
  | Ropen (tag : Nat) (qid : Qid) (iounit : Nat)
  | Tcreate (tag fid : Nat) (name : List Nat) (perm mode : Nat)
  | Rcreate (tag : Nat) (qid : Qid) (iounit : Nat)
  | Tread (tag fid offset count : Nat)
  | Rread (tag : Nat) (data : List Nat)
  | Twrite (tag fid offset : Nat) (data : List Nat)
  | Rwrite (tag count : Nat)
  | Tclunk (tag fid : Nat)
  | Rclunk (tag : Nat)
  | Tremove (tag fid : Nat)
  | Rremove (tag : Nat)
  | Tstat (tag fid : Nat)
  | Rstat (tag : Nat) (stat : Stat)
deriving DecidableEq, Repr

namespace StyxMsg

/-- The wire type code of each variant (the class attribute `code`). -/
def code : StyxMsg → Nat
  | Tversion .. => 100
  | Rversion .. => 101
  | Tattach .. => 104
  | Rattach .. => 105
  | Rerror .. => 107
  | Twalk .. => 110
  | Rwalk .. => 111
  | Topen .. => 112
  | Ropen .. => 113
  | Tcreate .. => 114
  | Rcreate .. => 115
  | Tread .. => 116
  | Rread .. => 117
  | Twrite .. => 118
  | Rwrite .. => 119
  | Tclunk .. => 120
  | Rclunk .. => 121
  | Tremove .. => 122
  | Rremove .. => 123
  | Tstat .. => 124
  | Rstat .. => 125

/-- The tag field of each variant. -/
def tag : StyxMsg → Nat
  | Tversion t .. => t
  | Rversion t .. => t
  | Tattach t .. => t
  | Rattach t .. => t
  | Rerror t .. => t
  | Twalk t .. => t
  | Rwalk t .. => t
  | Topen t .. => t
  | Ropen t .. => t
  | Tcreate t .. => t
  | Rcreate t .. => t
  | Tread t .. => t
  | Rread t .. => t
  | Twrite t .. => t
  | Rwrite t .. => t
  | Tclunk t .. => t
  | Rclunk t => t
  | Tremove t .. => t
  | Rremove t => t
  | Tstat t .. => t
  | Rstat t .. => t

/-- The bytes each encode method appends after the type code and tag:
encode_format over the class's field schema, plus the trailing
variable-length parts (walk names, walk qids, raw data, wrapped stat). -/
def encodeBody : StyxMsg → List Nat
  | Tversion _ msize version => put32 msize ++ encode_string version
  | Rversion _ msize version => put32 msize ++ encode_string version
  | Tattach _ fid afid uname aname =>
      put32 fid ++ put32 afid ++ encode_string uname ++ encode_string aname
  | Rattach _ qid => encode_qid qid
  | Rerror _ ename => encode_string ename
  | Twalk _ fid newfid wname =>
      put32 fid ++ put32 newfid ++ put16 wname.length ++ encodeStrings wname
  | Rwalk _ wqid => put16 wqid.length ++ encodeQids wqid
  | Topen _ fid mode => put32 fid ++ put8 mode
  | Ropen _ qid iounit => encode_qid qid ++ put32 iounit
  | Tcreate _ fid name perm mode =>
      put32 fid ++ encode_string name ++ put32 perm ++ put8 mode
  | Rcreate _ qid iounit => encode_qid qid ++ put32 iounit
  | Tread _ fid offset count => put32 fid ++ put64 offset ++ put32 count
  | Rread _ data => put32 data.length ++ data
  | Twrite _ fid offset data =>
      put32 fid ++ put64 offset ++ put32 data.length ++ data
  | Rwrite _ count => put32 count
  | Tclunk _ fid => put32 fid
  | Rclunk _ => []
  | Tremove _ fid => put32 fid
  | Rremove _ => []
  | Tstat _ fid => put32 fid
  | Rstat _ stat => encode_data (Stat.encode stat)

/-- StyxMessage.encode from styx.py: pack "<BH" (code, tag), append the
body, then prepend pack "<I" of the total length including the 4 size
bytes themselves. -/
def encodeMsg (m : StyxMsg) : List Nat :=
  let d := put8 m.code ++ put16 m.tag ++ encodeBody m
  put32 (d.length + 4) ++ d

/-- Decode a message body given its already-read type code and tag:
the per-class decode methods reached through MessageTypes.  An unknown
code is a KeyError in MessageTypes, which `decode` re-raises (none). -/
def decodeBody : Nat → Nat → List Nat → Option (StyxMsg × List Nat)
  | 100, tag, l => do
      let (msize, l) ← get32 l
      let (v, l) ← decode_string l
      some (Tversion tag msize v, l)
  | 101, tag, l => do
      let (msize, l) ← get32 l
      let (v, l) ← decode_string l
      some (Rversion tag msize v, l)
  | 104, tag, l => do
      let (fid, l) ← get32 l
      let (afid, l) ← get32 l
      let (uname, l) ← decode_string l
      let (aname, l) ← decode_string l
      some (Tattach tag fid afid uname aname, l)
  | 105, tag, l => do
      let (q, l) ← decode_qid l
      some (Rattach tag q, l)
  | 107, tag, l => do
      let (e, l) ← decode_string l
      some (Rerror tag e, l)
  | 110, tag, l => do
      let (fid, l) ← get32 l
      let (newfid, l) ← get32 l
      let (nwname, l) ← get16 l
      let (wname, l) ← decodeStrings nwname l
      some (Twalk tag fid newfid wname, l)
  | 111, tag, l => do
      let (nwqid, l) ← get16 l
      let (wqid, l) ← decodeQids nwqid l
      some (Rwalk tag wqid, l)
  | 112, tag, l => do
      let (fid, l) ← get32 l
      let (mode, l) ← get8 l
      some (Topen tag fid mode, l)
  | 113, tag, l => do
      let (q, l) ← decode_qid l
      let (iounit, l) ← get32 l
      some (Ropen tag q iounit, l)
  | 114, tag, l => do
      let (fid, l) ← get32 l
      let (name, l) ← decode_string l
      let (perm, l) ← get32 l
      let (mode, l) ← get8 l
      some (Tcreate tag fid name perm mode, l)
  | 115, tag, l => do
      let (q, l) ← decode_qid l
      let (iounit, l) ← get32 l
      some (Rcreate tag q iounit, l)
  | 116, tag, l => do
      let (fid, l) ← get32 l
      let (offset, l) ← get64 l
      let (count, l) ← get32 l
      some (Tread tag fid offset count, l)
  | 117, tag, l => do
      let (count, l) ← get32 l
      let (data, l) ← takeBytes count l
      some (Rread tag data, l)
  | 118, tag, l => do
      let (fid, l) ← get32 l
      let (offset, l) ← get64 l
      let (count, l) ← get32 l
      let (data, l) ← takeBytes count l
      some (Twrite tag fid offset data, l)
  | 119, tag, l => do
      let (count, l) ← get32 l
      some (Rwrite tag count, l)
  | 120, tag, l => do
      let (fid, l) ← get32 l
      some (Tclunk tag fid, l)
  | 121, tag, l => some (Rclunk tag, l)
  | 122, tag, l => do
      let (fid, l) ← get32 l
      some (Tremove tag fid, l)
  | 123, tag, l => some (Rremove tag, l)
  | 124, tag, l => do
      let (fid, l) ← get32 l
      some (Tstat tag fid, l)
  | 125, tag, l => do
      let (_, l) ← get16 l
      let (st, l) ← Stat.decode l
      some (Rstat tag st, l)
  | _, _, _ => none

/-- styx.decode: read the 4-byte size (stored on the object but not
used to bound the body), the type byte, the 2-byte tag, then the body
through the class looked up in MessageTypes. -/
def decodeMsg (l : List Nat) : Option (StyxMsg × List Nat) := do
  let (_, l) ← get32 l
  let (code, l) ← get8 l
  let (tag, l) ← get16 l
  decodeBody code tag l

/-- Field values on which every struct.pack call in the encode path
accepts its argument: each fixed-width field fits its width, each
string and counted blob fits its count prefix, and the framed message
fits the 32-bit size prefix. -/
def Valid : StyxMsg → Prop
  | Tversion tag msize version =>
      tag < 65536 ∧ msize < 4294967296 ∧ version.length < 65536
  | Rversion tag msize version =>
      tag < 65536 ∧ msize < 4294967296 ∧ version.length < 65536
  | Tattach tag fid afid uname aname =>
      tag < 65536 ∧ fid < 4294967296 ∧ afid < 4294967296 ∧
      uname.length < 65536 ∧ aname.length < 65536
  | Rattach tag qid => tag < 65536 ∧ ValidQid qid
  | Rerror tag ename => tag < 65536 ∧ ename.length < 65536
  | Twalk tag fid newfid wname =>
      tag < 65536 ∧ fid < 4294967296 ∧ newfid < 4294967296 ∧
      wname.length < 65536 ∧ (∀ s ∈ wname, s.length < 65536) ∧
      (encodeStrings wname).length + 17 < 4294967296
  | Rwalk tag wqid =>
      tag < 65536 ∧ wqid.length < 65536 ∧ ∀ q ∈ wqid, ValidQid q
  | Topen tag fid mode =>
      tag < 65536 ∧ fid < 4294967296 ∧ mode < 256
  | Ropen tag qid iounit =>
      tag < 65536 ∧ ValidQid qid ∧ iounit < 4294967296
  | Tcreate tag fid name perm mode =>
      tag < 65536 ∧ fid < 4294967296 ∧ name.length < 65536 ∧
      perm < 4294967296 ∧ mode < 256
  | Rcreate tag qid iounit =>
      tag < 65536 ∧ ValidQid qid ∧ iounit < 4294967296
  | Tread tag fid offset count =>
      tag < 65536 ∧ fid < 4294967296 ∧ offset < 18446744073709551616 ∧
      count < 4294967296
  | Rread tag data =>
      tag < 65536 ∧ data.length + 15 < 4294967296
  | Twrite tag fid offset data =>
      tag < 65536 ∧ fid < 4294967296 ∧ offset < 18446744073709551616 ∧
      data.length + 27 < 4294967296
  | Rwrite tag count => tag < 65536 ∧ count < 4294967296
  | Tclunk tag fid => tag < 65536 ∧ fid < 4294967296
  | Rclunk tag => tag < 65536
  | Tremove tag fid => tag < 65536 ∧ fid < 4294967296
  | Rremove tag => tag < 65536
  | Tstat tag fid => tag < 65536 ∧ fid < 4294967296
  | Rstat tag stat =>
      tag < 65536 ∧ Stat.Valid stat ∧ (Stat.encode stat).length < 65536

instance (m : StyxMsg) : Decidable m.Valid := by
  cases m <;> (simp only [Valid]; infer_instance)

end StyxMsg

end Styx

namespace StyxServer

open Styx

/-- StyxServer.MAX_MSG_SIZE from styxserver.py. -/
def MAX_MSG_SIZE : Nat := 0

/-- The python exceptions the serve loop distinguishes.  Only KeyError
matters for the modelled handlers (missing dict key). -/
inductive PyErr where
  | keyError
deriving DecidableEq, Repr

/-- The per-connection store-owned session state: the two fid-indexed
dictionaries qids and paths (kept in lock step by set_qid_path and
free_qid_path, so modelled as one map to a pair), the opened map, and
root_fid.  Both stores (dictserver.py and localfileserver.py) implement
these four methods with identical code. -/
structure Session where
  fids : Nat → Option (Qid × String)
  opened : Nat → Option Nat
  root_fid : Option Nat

/-- The session every store starts with: empty dictionaries, root_fid None. -/
def emptySession : Session :=
  { fids := fun _ => none, opened := fun _ => none, root_fid := none }

/-- path.lstrip of the slash character: drop every leading slash. -/
def lstripSlash (s : String) : String :=
  String.mk (s.data.dropWhile (fun c => c == '/'))

/-- set_qid_path: lstrip the path, then assign qids[fid] and paths[fid]. -/
def set_qid_path (st : Session) (fid : Nat) (q : Qid) (path : String) :
    Session :=
  { st with fids := fun f => if f = fid then some (q, lstripSlash path)
                             else st.fids f }

/-- get_qid_path: return (qids[fid], paths[fid]); a missing fid raises
KeyError. -/
def get_qid_path (st : Session) (fid : Nat) : Except PyErr (Qid × String) :=
  match st.fids fid with
  | some qp => .ok qp
  | none => .error .keyError

/-- free_qid_path: del qids[fid] and paths[fid] (KeyError when absent),
and del opened[fid] when present. -/
def free_qid_path (st : Session) (fid : Nat) : Except PyErr Session :=
  match st.fids fid with
  | some _ => .ok
      { st with fids := fun f => if f = fid then none else st.fids f,
                opened := fun f => if f = fid then none else st.opened f }
  | none => .error .keyError

/-- store.open (identical in both stores): record the mode; reject only
a re-open whose mode has the DMEXCL bit. -/
def storeOpen (st : Session) (fid mode : Nat) : Bool × Session :=
  let st' := { st with opened := fun f => if f = fid then some mode
                                          else st.opened f }
  if (st.opened fid).isSome then
    (if mode &&& Stat.DMEXCL ≠ 0 then false else true, st')
  else (true, st')

/-- get_root_qid (identical in both stores up to make_qid): take the
qid of "/", bind fid to it, record root_fid, return the qid.  When
make_qid fails the python code still stores the None qid; that branch
is unreachable for the dict store, whose root always exists, and the
model leaves the fid table untouched there. -/
def get_root_qid (mk : String → Option Qid) (st : Session) (fid : Nat) :
    Option Qid × Session :=
  match mk "/" with
  | some q => (some q, { set_qid_path st fid q "/" with root_fid := some fid })
  | none => (none, { st with root_fid := some fid })

/-- One step of the Twalk loop's path update: ".." pops the last
element when the list is non-empty, anything else is appended. -/
def walkStepPath (newPath : List String) (element : String) : List String :=
  if element = ".." then (if newPath ≠ [] then newPath.dropLast else newPath)
  else newPath ++ [element]

/-- Result of the Twalk element loop. -/
inductive WalkOutcome where
  | stopped (qids : List Qid)
  | notFound
  | success (qid : Qid) (newPath : List String) (qids : List Qid)
deriving DecidableEq, Repr

/-- The Twalk element loop from StyxServer.Twalk: update the path,
call make_qid, and on the first failure return the partial qid list
when non-empty, else signal Not found. -/
def walkLoop (mk : String → Option Qid) (qid : Qid) (newPath : List String)
    (qids : List Qid) : List String → WalkOutcome
  | [] => .success qid newPath qids
  | element :: rest =>
      let np := walkStepPath newPath element
      match mk (String.intercalate "/" np) with
      | none => if qids.length > 0 then .stopped qids else .notFound
      | some q => walkLoop mk q np (qids ++ [q]) rest

/-- The replies the modelled handlers emit. -/
inductive Reply where
  | Rversion (tag msize : Nat) (version : String)
  | Rattach (tag : Nat) (qid : Qid)
  | Rerror (tag : Nat) (ename : String)
  | Rwalk (tag : Nat) (wqid : List Qid)
  | Ropen (tag : Nat) (qid : Qid) (iounit : Nat)
  | Rread (tag : Nat) (data : List Nat)
  | Rwrite (tag count : Nat)
  | Rclunk (tag : Nat)
  | Rstat (tag : Nat) (stat : Stat)
deriving DecidableEq, Repr

/-- The T-messages whose handlers the claims exercise, as the decoded
python message objects the dispatcher receives. -/
inductive TMsg where
  | Tversion (tag msize : Nat) (version : String)
  | Tattach (tag fid afid : Nat) (uname aname : String)
  | Twalk (tag fid newfid : Nat) (wname : List String)
  | Topen (tag fid mode : Nat)
  | Tstat (tag fid : Nat)
  | Tclunk (tag fid : Nat)
  | Twrite (tag fid offset : Nat) (data : List Nat)
deriving DecidableEq, Repr

/-- The tag of a request, echoed into error replies by the serve loop. -/
def TMsg.tag : TMsg → Nat
  | .Tversion t .. => t
  | .Tattach t .. => t
  | .Twalk t .. => t
  | .Topen t .. => t
  | .Tstat t .. => t
  | .Tclunk t .. => t
  | .Twrite t .. => t

/-- StyxServer.Twalk: look up (qid, path) for fid, run the element
loop from path.split("/"), and on full success bind newfid to the
final (qid, "/".join(new_path)). -/
def handleTwalk (mk : String → Option Qid) (st : Session)
    (tag fid newfid : Nat) (wname : List String) :
    Except PyErr (Reply × Session) := do
  let (qid, path) ← get_qid_path st fid
  match walkLoop mk qid (path.splitOn "/") [] wname with
  | .stopped qids => .ok (.Rwalk tag qids, st)
  | .notFound => .ok (.Rerror tag "Not found.", st)
  | .success q np qids =>
      .ok (.Rwalk tag qids, set_qid_path st newfid q (String.intercalate "/" np))

/-- StyxServer.Topen: look up the fid's qid, record the open mode,
reply Ropen with MAX_MSG_SIZE as iounit, or Rerror when open refuses. -/
def handleTopen (st : Session) (tag fid mode : Nat) :
    Except PyErr (Reply × Session) := do
  let (qid, _) ← get_qid_path st fid
  let (ok, st') := storeOpen st fid mode
  if ok then .ok (.Ropen tag qid MAX_MSG_SIZE, st')
  else .ok (.Rerror tag "Cannot open file.", st')

/-- StyxServer.Tstat: store.stat reads qids[fid] and paths[fid] (KeyError
when missing) and builds the stat record (store-specific, abstracted as
statOf); None becomes Rerror Not found. -/
def handleTstat (statOf : Qid → String → Option Stat) (st : Session)
    (tag fid : Nat) : Except PyErr (Reply × Session) := do
  let (qid, path) ← get_qid_path st fid
  match statOf qid path with
  | none => .ok (.Rerror tag "Not found.", st)
  | some s => .ok (.Rstat tag s, st)

/-- StyxServer.Tclunk: free the fid (KeyError when absent); when the fid
is the root fid, the client is removed from the clients dictionary, which
ends the connection loop.  The Bool is "the session continues". -/
def handleTclunk (st : Session) (tag fid : Nat) :
    Except PyErr (Reply × Session × Bool) := do
  let st' ← free_qid_path st fid
  .ok (.Rclunk tag, st', !(st.root_fid = some fid))

/-- StyxServer.Twrite: delegate to store.write; -1 is Not a file, any
other count differing from len(data) is Failed to write data, and a
full count is Rwrite. -/
def handleTwrite (writeF : Nat → Nat → List Nat → Int)
    (tag fid offset : Nat) (data : List Nat) : Reply :=
  let count := writeF fid offset data
  if count = -1 then .Rerror tag "Not a file."
  else if count ≠ (data.length : Int) then .Rerror tag "Failed to write data."
  else .Rwrite tag count.toNat

/-- StyxServer.Tversion: echo the client's msize and version. -/
def handleTversion (tag msize : Nat) (version : String) : Reply :=
  .Rversion tag msize version

/-- StyxServer.Tattach: get_root_qid (which ignores afid entirely);
None becomes Rerror Root not found, otherwise Rattach with the qid. -/
def handleTattach (mk : String → Option Qid) (st : Session)
    (tag fid _afid : Nat) (_uname _aname : String) : Reply × Session :=
  match get_root_qid mk st fid with
  | (none, st') => (.Rerror tag "Root not found.", st')
  | (some q, st') => (.Rattach tag q, st')

/-- The handler dispatch of StyxServer.serve, before exception
handling.  The Bool is "the session continues". -/
def dispatch (mk : String → Option Qid) (statOf : Qid → String → Option Stat)
    (writeF : Nat → Nat → List Nat → Int) (st : Session) :
    TMsg → Except PyErr (Reply × Session × Bool)
  | .Tversion tag msize version => .ok (handleTversion tag msize version, st, true)
  | .Tattach tag fid afid uname aname =>
      let (r, st') := handleTattach mk st tag fid afid uname aname
      .ok (r, st', true)
  | .Twalk tag fid newfid wname => do
      let (r, st') ← handleTwalk mk st tag fid newfid wname
      .ok (r, st', true)
  | .Topen tag fid mode => do
      let (r, st') ← handleTopen st tag fid mode
      .ok (r, st', true)
  | .Tstat tag fid => do
      let (r, st') ← handleTstat statOf st tag fid
      .ok (r, st', true)
  | .Tclunk tag fid => handleTclunk st tag fid
  | .Twrite tag fid offset data =>
      .ok (handleTwrite writeF tag fid offset data, st, true)

/-- One iteration of the serve loop after decoding: run the handler;
a KeyError (from a handler's dict lookup, the same except clause that
catches an unknown message code) becomes Rerror Unsupported message
and the session continues with the store state unchanged. -/
def serveStep (mk : String → Option Qid) (statOf : Qid → String → Option Stat)
    (writeF : Nat → Nat → List Nat → Int) (st : Session) (msg : TMsg) :
    Reply × Session × Bool :=
  match dispatch mk statOf writeF st msg with
  | .ok out => out
  | .error .keyError => (.Rerror msg.tag "Unsupported message.", st, true)

/-- The last element of a qid list, defaulting to the starting qid:
the value the loop variable qid holds after the loop. -/
def lastD : List Qid → Qid → Qid
  | [], d => d
  | q :: qs, _ => lastD qs q

/-- Modelled from the spec wording of the walk ("resolves each wname
element in order starting from the path bound to fid; on the first
element that fails to resolve" the walk stops): the qids produced
before the first resolution failure. -/
def walkQidsSpec (mk : String → Option Qid) :
    List String → List String → List Qid
  | _, [] => []
  | np, e :: rest =>
      let np' := walkStepPath np e
      match mk (String.intercalate "/" np') with
      | none => []
      | some q => q :: walkQidsSpec mk np' rest

/-- A store function with no objects, for concrete instantiations. -/
def mkNone : String → Option Qid := fun _ => none

/-- A stat function with no objects, for concrete instantiations. -/
def statOfNone : Qid → String → Option Stat := fun _ _ => none

/-- A write function reporting zero bytes, for concrete instantiations. -/
def writeZero : Nat → Nat → List Nat → Int := fun _ _ _ => 0

/-- A one-entry store function: only path "/a" resolves. -/
def mkW : String → Option Qid := fun s => if s = "/a" then some ⟨0, 0, 2⟩ else none

/-- A session whose fid 0 is bound to the root. -/
def stW : Session :=
  { fids := fun f => if f = 0 then some (⟨0x80, 0, 1⟩, "") else none,
    opened := fun _ => none, root_fid := some 0 }


end StyxServer

namespace DictStore

open Styx

/-- A node of the dictionary tree served by dictserver.py: a python
dict (directory) or a unicode string (file, kept as its UTF-8 bytes).
oid models id(obj), the number make_qid uses as the qid path. -/
inductive DObj where
  | file (oid : Nat) (content : List Nat)
  | dir (oid : Nat) (entries : List (String × DObj))

/-- id(obj). -/
def DObj.oid : DObj → Nat
  | .file o _ => o
  | .dir o _ => o

/-- type(obj) == dict. -/
def DObj.isDir : DObj → Bool
  | .file .. => false
  | .dir .. => true

/-- DictStore.traverse's loop body over one path element: a dict lookup
(KeyError becomes None); indexing a string with a string would raise
TypeError in python, a case no claim exercises, modelled as None. -/
def traverseGo : DObj → List String → Option DObj
  | obj, [] => some obj
  | .dir _ es, e :: rest =>
      match (es.find? (fun p => p.1 == e)).map Prod.snd with
      | some child => traverseGo child rest
      | none => none
  | .file .., _ :: _ => none

/-- DictStore.traverse: the root dictionary for the empty path;
otherwise follow path.split("/"). -/
def traverse (d : DObj) (path : String) : Option DObj :=
  if path = "" then some d else traverseGo d (path.splitOn "/")

/-- DictStore.make_qid: lstrip slashes, traverse, and build
(0x80 for a dict else 0, version 0, id(obj)). -/
def make_qid (d : DObj) (path : String) : Option Qid :=
  match traverse d (StyxServer.lstripSlash path) with
  | none => none
  | some obj => some ⟨if obj.isDir then 0x80 else 0, 0, obj.oid⟩

/-- DictStore.write: always report -2, writing nothing. -/
def write (_fid _offset : Nat) (_data : List Nat) : Int := -2

/-- The tree served by dictserver's __main__ (contents abbreviated),
with explicit object ids standing for id(obj). -/
def sampleTree : DObj :=
  .dir 1 [("dir", .dir 2 [("hello.txt", .file 3 [104, 101, 108, 108, 111])])]


end DictStore

namespace Client

/-- Client.MSIZE from client.py. -/
def MSIZE : Nat := 16384

/-- Client.MAXWELEM from client.py. -/
def MAXWELEM : Nat := 16

/-- The while loop of Client._next_fid: advance until the candidate is
not in the in-use set.  The python loop has no fuel; fids.card + 1
steps provably suffice (pigeonhole), so the fuelled model computes the
same first free candidate the loop finds. -/
def scanFree (fids : Finset Nat) : Nat → Nat → Nat
  | 0, start => start
  | fuel + 1, start =>
      if start ∈ fids then scanFree fids fuel (start + 1) else start

/-- Client._next_fid: start at fid + 1, reset to 0 when that exceeds
the number of in-use fids, scan upward for a free fid, and add it to
the in-use set. -/
def _next_fid (fids : Finset Nat) (fid : Nat) : Nat × Finset Nat :=
  let next0 := if fid + 1 > fids.card then 0 else fid + 1
  let nf := scanFree fids (fids.card + 1) next0
  (nf, insert nf fids)


end Client

/-- A concrete all-zero, empty-string stat record, for instantiation. -/
def statW : Styx.Stat := ⟨0, 0, ⟨0, 0, 0⟩, 0, 0, 0, 0, [], [], [], []⟩

namespace Styx

theorem get8_put8 {n : Nat} (h : n < 256) (r : List Nat) :
    get8 (put8 n ++ r) = some (n, r) := by
  simp [get8, put8, Nat.mod_eq_of_lt h]

theorem get16_put16_mod (n : Nat) (r : List Nat) :
    get16 (put16 n ++ r) = some (n % 65536, r) := by
  simp only [put16, List.cons_append, List.nil_append, get16,
    Option.some.injEq, Prod.mk.injEq, and_true]
  omega

theorem get16_put16 {n : Nat} (h : n < 65536) (r : List Nat) :
    get16 (put16 n ++ r) = some (n, r) := by
  rw [get16_put16_mod, Nat.mod_eq_of_lt h]

theorem get32_put32_mod (n : Nat) (r : List Nat) :
    get32 (put32 n ++ r) = some (n % 4294967296, r) := by
  simp only [put32, List.cons_append, List.nil_append, get32,
    Option.some.injEq, Prod.mk.injEq, and_true]
  omega

theorem get32_put32 {n : Nat} (h : n < 4294967296) (r : List Nat) :
    get32 (put32 n ++ r) = some (n, r) := by
  rw [get32_put32_mod, Nat.mod_eq_of_lt h]

theorem get64_put64_mod (n : Nat) (r : List Nat) :
    get64 (put64 n ++ r) = some (n % 18446744073709551616, r) := by
  simp only [put64, List.cons_append, List.nil_append, get64,
    Option.some.injEq, Prod.mk.injEq, and_true]
  omega

theorem get64_put64 {n : Nat} (h : n < 18446744073709551616) (r : List Nat) :
    get64 (put64 n ++ r) = some (n, r) := by
  rw [get64_put64_mod, Nat.mod_eq_of_lt h]

theorem takeBytes_append (s r : List Nat) :
    takeBytes s.length (s ++ r) = some (s, r) := by
  simp [takeBytes, List.take_left, List.drop_left]

theorem decode_string_encode {s : List Nat} (h : s.length < 65536)
    (r : List Nat) :
    decode_string (encode_string s ++ r) = some (s, r) := by
  simp only [decode_string, encode_string, List.append_assoc]
  rw [get16_put16 h]
  simp [takeBytes_append]

theorem decode_data_encode {d : List Nat} (h : d.length < 65536)
    (r : List Nat) :
    decode_data (encode_data d ++ r) = some (d, r) := by
  simp only [decode_data, encode_data, List.append_assoc]
  rw [get16_put16 h]
  simp [takeBytes_append]
theorem decode_qid_encode {q : Qid} (h : ValidQid q) (r : List Nat) :
    decode_qid (encode_qid q ++ r) = some (q, r) := by
  obtain ⟨h1, h2, h3⟩ := h
  simp only [decode_qid, encode_qid, List.append_assoc]
  rw [get8_put8 h1]
  simp only [Option.bind_eq_bind, Option.some_bind]
  rw [get32_put32 h2]
  simp only [Option.some_bind]
  rw [get64_put64 h3]
  rfl

namespace Stat

set_option maxHeartbeats 1000000 in
theorem decode_encode {s : Stat} (h : Valid s) (r : List Nat) :
    Stat.decode (Stat.encode s ++ r) = some (s, r) := by
  obtain ⟨h1, h2, h3, h4, h5, h6, h7, h8, h9, h10, h11⟩ := h
  simp only [Stat.decode, Stat.encode, encode_data, encodeFields,
    List.append_assoc]
  rw [get16_put16_mod]
  simp only [Option.bind_eq_bind, Option.some_bind]
  rw [get16_put16 h1, Option.some_bind, get32_put32 h2, Option.some_bind,
    decode_qid_encode h3, Option.some_bind, get32_put32 h4, Option.some_bind,
    get32_put32 h5, Option.some_bind, get32_put32 h6, Option.some_bind,
    get64_put64 h7, Option.some_bind, decode_string_encode h8,
    Option.some_bind, decode_string_encode h9, Option.some_bind,
    decode_string_encode h10, Option.some_bind, decode_string_encode h11,
    Option.some_bind]


end Stat

theorem decodeStrings_encode {ss : List (List Nat)}
    (h : ∀ s ∈ ss, s.length < 65536) (r : List Nat) :
    decodeStrings ss.length (encodeStrings ss ++ r) = some (ss, r) := by
  induction ss with
  | nil => simp [decodeStrings, encodeStrings]
  | cons s ss ih =>
      simp only [encodeStrings, List.length_cons, decodeStrings,
        List.append_assoc]
      rw [decode_string_encode (h s (by simp)), Option.bind_eq_bind,
        Option.some_bind, ih (fun x hx => h x (by simp [hx]))]
      simp

theorem decodeQids_encode {qs : List Qid}
    (h : ∀ q ∈ qs, ValidQid q) (r : List Nat) :
    decodeQids qs.length (encodeQids qs ++ r) = some (qs, r) := by
  induction qs with
  | nil => simp [decodeQids, encodeQids]
  | cons q qs ih =>
      simp only [encodeQids, List.length_cons, decodeQids,
        List.append_assoc]
      rw [decode_qid_encode (h q (by simp)), Option.bind_eq_bind,
        Option.some_bind, ih (fun x hx => h x (by simp [hx]))]
      simp


namespace StyxMsg

theorem tag_lt (m : StyxMsg) (h : m.Valid) : m.tag < 65536 := by
  cases m <;> first | exact h.1 | exact h

theorem code_lt (m : StyxMsg) : m.code < 256 := by
  cases m <;> norm_num [code]

set_option maxHeartbeats 3000000 in
/-- Each variant's body decoder inverts its body encoder, on any
suffix, whenever the fields are valid. -/
theorem decodeBody_encodeBody (m : StyxMsg) (r : List Nat) (h : m.Valid) :
    decodeBody m.code m.tag (encodeBody m ++ r) = some (m, r) := by
  cases m with
  | Tversion tag msize version =>
      obtain ⟨ht, hm, hv⟩ := h
      simp [decodeBody, code, StyxMsg.tag, encodeBody, List.append_assoc,
        get32_put32 hm, decode_string_encode hv]
  | Rversion tag msize version =>
      obtain ⟨ht, hm, hv⟩ := h
      simp [decodeBody, code, StyxMsg.tag, encodeBody, List.append_assoc,
        get32_put32 hm, decode_string_encode hv]
  | Tattach tag fid afid uname aname =>
      obtain ⟨ht, hf, ha, hu, hn⟩ := h
      simp [decodeBody, code, StyxMsg.tag, encodeBody, List.append_assoc,
        get32_put32 hf, get32_put32 ha, decode_string_encode hu,
        decode_string_encode hn]
  | Rattach tag qid =>
      obtain ⟨ht, hq⟩ := h
      simp [decodeBody, code, StyxMsg.tag, encodeBody, List.append_assoc,
        decode_qid_encode hq]
  | Rerror tag ename =>
      obtain ⟨ht, he⟩ := h
      simp [decodeBody, code, StyxMsg.tag, encodeBody, List.append_assoc,
        decode_string_encode he]
  | Twalk tag fid newfid wname =>
      obtain ⟨ht, hf, hn, hw, hs, hsz⟩ := h
      simp [decodeBody, code, StyxMsg.tag, encodeBody, List.append_assoc,
        get32_put32 hf, get32_put32 hn, get16_put16 hw,
        decodeStrings_encode hs]
  | Rwalk tag wqid =>
      obtain ⟨ht, hw, hq⟩ := h
      simp [decodeBody, code, StyxMsg.tag, encodeBody, List.append_assoc,
        get16_put16 hw, decodeQids_encode hq]
  | Topen tag fid mode =>
      obtain ⟨ht, hf, hm⟩ := h
      simp [decodeBody, code, StyxMsg.tag, encodeBody, List.append_assoc,
        get32_put32 hf, get8_put8 hm]
  | Ropen tag qid iounit =>
      obtain ⟨ht, hq, hi⟩ := h
      simp [decodeBody, code, StyxMsg.tag, encodeBody, List.append_assoc,
        decode_qid_encode hq, get32_put32 hi]
  | Tcreate tag fid name perm mode =>
      obtain ⟨ht, hf, hn, hp, hm⟩ := h
      simp [decodeBody, code, StyxMsg.tag, encodeBody, List.append_assoc,
        get32_put32 hf, decode_string_encode hn, get32_put32 hp,
        get8_put8 hm]
  | Rcreate tag qid iounit =>
      obtain ⟨ht, hq, hi⟩ := h
      simp [decodeBody, code, StyxMsg.tag, encodeBody, List.append_assoc,
        decode_qid_encode hq, get32_put32 hi]
  | Tread tag fid offset count =>
      obtain ⟨ht, hf, ho, hc⟩ := h
      simp [decodeBody, code, StyxMsg.tag, encodeBody, List.append_assoc,
        get32_put32 hf, get64_put64 ho, get32_put32 hc]
  | Rread tag data =>
      obtain ⟨ht, hd⟩ := h
      have hd32 : data.length < 4294967296 := by omega
      simp [decodeBody, code, StyxMsg.tag, encodeBody, List.append_assoc,
        get32_put32 hd32, takeBytes_append]
  | Twrite tag fid offset data =>
      obtain ⟨ht, hf, ho, hd⟩ := h
      have hd32 : data.length < 4294967296 := by omega
      simp [decodeBody, code, StyxMsg.tag, encodeBody, List.append_assoc,
        get32_put32 hf, get64_put64 ho, get32_put32 hd32, takeBytes_append]
  | Rwrite tag count =>
      obtain ⟨ht, hc⟩ := h
      simp [decodeBody, code, StyxMsg.tag, encodeBody, List.append_assoc,
        get32_put32 hc]
  | Tclunk tag fid =>
      obtain ⟨ht, hf⟩ := h
      simp [decodeBody, code, StyxMsg.tag, encodeBody, List.append_assoc,
        get32_put32 hf]
  | Rclunk tag =>
      simp [decodeBody, code, StyxMsg.tag, encodeBody]
  | Tremove tag fid =>
      obtain ⟨ht, hf⟩ := h
      simp [decodeBody, code, StyxMsg.tag, encodeBody, List.append_assoc,
        get32_put32 hf]
  | Rremove tag =>
      simp [decodeBody, code, StyxMsg.tag, encodeBody]
  | Tstat tag fid =>
      obtain ⟨ht, hf⟩ := h
      simp [decodeBody, code, StyxMsg.tag, encodeBody, List.append_assoc,
        get32_put32 hf]
  | Rstat tag stat =>
      obtain ⟨ht, hs, hsz⟩ := h
      simp [decodeBody, code, StyxMsg.tag, encodeBody, encode_data,
        List.append_assoc, get16_put16_mod, Stat.decode_encode hs]

set_option maxHeartbeats 1000000 in
/-- styx.decode inverts StyxMessage.encode for every registered
variant with valid fields, consuming the whole frame. -/
theorem decodeMsg_encodeMsg (m : StyxMsg) (h : m.Valid) :
    decodeMsg (encodeMsg m) = some (m, []) := by
  simp only [decodeMsg, encodeMsg, List.append_assoc]
  rw [get32_put32_mod]
  simp only [Option.bind_eq_bind, Option.some_bind]
  rw [get8_put8 (code_lt m), Option.some_bind, get16_put16 (tag_lt m h),
    Option.some_bind]
  simpa using decodeBody_encodeBody m [] h


end StyxMsg

end Styx

namespace StyxServer

open Styx

theorem walkLoop_eq (mk : String → Option Qid) (wname : List String) :
    ∀ (np : List String) (qid : Qid) (acc : List Qid),
      walkLoop mk qid np acc wname =
        (let qs := walkQidsSpec mk np wname
         if qs.length = wname.length then
           WalkOutcome.success (lastD qs qid) (wname.foldl walkStepPath np)
             (acc ++ qs)
         else if (acc ++ qs).length > 0 then WalkOutcome.stopped (acc ++ qs)
         else WalkOutcome.notFound) := by
  induction wname with
  | nil =>
      intro np qid acc
      simp [walkLoop, walkQidsSpec, lastD]
  | cons e rest ih =>
      intro np qid acc
      simp only [walkLoop, walkQidsSpec]
      cases hmk : mk (String.intercalate "/" (walkStepPath np e)) with
      | none =>
          dsimp only
          simp only [List.append_nil, List.length_nil, List.length_cons]
          have hne : ¬ (0 = rest.length + 1) := by omega
          rw [if_neg hne]
      | some q =>
          dsimp only
          rw [ih (walkStepPath np e) q (acc ++ [q])]
          simp only [List.append_assoc, List.singleton_append,
            List.length_cons, List.foldl_cons, lastD]
          by_cases hlen : (walkQidsSpec mk (walkStepPath np e) rest).length
              = rest.length
          · rw [if_pos hlen,
              if_pos (by omega :
                (walkQidsSpec mk (walkStepPath np e) rest).length + 1
                  = rest.length + 1)]
          · rw [if_neg hlen,
              if_neg (by omega :
                ¬ ((walkQidsSpec mk (walkStepPath np e) rest).length + 1
                  = rest.length + 1))]

end StyxServer

namespace DictStore

theorem make_qid_root (d : DObj) :
    make_qid d "/" = some ⟨if d.isDir then 0x80 else 0, 0, d.oid⟩ := by
  have h : StyxServer.lstripSlash "/" = "" := by decide
  simp [make_qid, h, traverse]

end DictStore

namespace Client

theorem scanFree_spec (fids : Finset Nat) :
    ∀ fuel start, (∃ k ≤ fuel, start + k ∉ fids) →
      start ≤ scanFree fids fuel start ∧ scanFree fids fuel start ∉ fids ∧
      ∀ j, start ≤ j → j < scanFree fids fuel start → j ∈ fids := by
  intro fuel
  induction fuel with
  | zero =>
      intro start h
      obtain ⟨k, hk, hfree⟩ := h
      interval_cases k
      simp only [scanFree]
      exact ⟨le_refl _, by simpa using hfree, fun j h1 h2 => absurd h2 (by omega)⟩
  | succ fuel ih =>
      intro start h
      by_cases hs : start ∈ fids
      · obtain ⟨k, hk, hfree⟩ := h
        have hk0 : k ≠ 0 := by rintro rfl; simp at hfree; exact hfree hs
        have h' : ∃ k' ≤ fuel, (start + 1) + k' ∉ fids :=
          ⟨k - 1, by omega, by have : start + 1 + (k - 1) = start + k := by omega
                               rw [this]; exact hfree⟩
        obtain ⟨h1, h2, h3⟩ := ih (start + 1) h'
        refine ⟨?_, ?_, ?_⟩
        · simp only [scanFree, if_pos hs]; omega
        · simpa only [scanFree, if_pos hs] using h2
        · intro j hj1 hj2
          simp only [scanFree, if_pos hs] at hj2
          rcases Nat.eq_or_lt_of_le hj1 with rfl | hlt
          · exact hs
          · exact h3 j hlt hj2
      · simp only [scanFree, if_neg hs]
        exact ⟨le_refl _, hs, fun j h1 h2 => absurd h2 (by omega)⟩

theorem exists_free_within_card (fids : Finset Nat) (start : Nat) :
    ∃ k ≤ fids.card, start + k ∉ fids := by
  by_contra hcon
  push_neg at hcon
  have hsub : (Finset.range (fids.card + 1)).image (fun k => start + k) ⊆ fids := by
    intro x hx
    obtain ⟨k, hk, rfl⟩ := Finset.mem_image.mp hx
    exact hcon k (by simpa using Nat.lt_succ_iff.mp (Finset.mem_range.mp hk))
  have hcard : fids.card + 1 ≤ fids.card := by
    have := Finset.card_le_card hsub
    rwa [Finset.card_image_of_injective _ (fun a b h => by omega),
      Finset.card_range] at this
  omega


end Client

open Styx StyxServer

/-- C1: for every message variant implemented by the codec, constructed
with valid field values, decoding the byte string produced by encoding
the message yields the same message, consuming the whole frame. -/
theorem roundtrip_decode_encode (m : StyxMsg) (h : m.Valid) :
    StyxMsg.decodeMsg (StyxMsg.encodeMsg m) = some (m, []) :=
  StyxMsg.decodeMsg_encodeMsg m h

/-- C1 witness: the round trip at a concrete Tversion message. -/
theorem roundtrip_decode_encode_witness :
    StyxMsg.decodeMsg
        (StyxMsg.encodeMsg (.Tversion 65535 16384 [57, 80, 50, 48, 48, 48]))
      = some (.Tversion 65535 16384 [57, 80, 50, 48, 48, 48], []) :=
  roundtrip_decode_encode (.Tversion 65535 16384 [57, 80, 50, 48, 48, 48])
    (by decide)

/-- C3 counterexample: a frame whose size field says 100 but whose body
is a complete 4-byte Tclunk body decodes successfully, consuming the 11
bytes the fields dictate rather than the 100 bytes the size field
claims: decode neither buffers size - 7 body bytes nor consumes size
bytes. -/
theorem decode_size_field_counterexample :
    StyxMsg.decodeMsg [100, 0, 0, 0, 120, 7, 0, 5, 0, 0, 0]
      = some (.Tclunk 7 5, []) ∧
    ([100, 0, 0, 0, 120, 7, 0, 5, 0, 0, 0] : List Nat).length = 11 ∧
    (100 : Nat) ≠ 11 := by
  refine ⟨by decide, by decide, by decide⟩

/-- C3 amended: after the 7-byte header the decoder reads the body
fields directly from the stream; the bytes consumed are those the body
fields dictate, and are independent of the value of the size field. -/
theorem decode_body_ignores_size_field (m : StyxMsg) (h : m.Valid) (sz : Nat) :
    StyxMsg.decodeMsg
        (put32 sz ++ put8 m.code ++ put16 m.tag ++ StyxMsg.encodeBody m)
      = some (m, []) := by
  simp only [StyxMsg.decodeMsg, List.append_assoc]
  rw [get32_put32_mod]
  simp only [Option.bind_eq_bind, Option.some_bind]
  rw [get8_put8 (StyxMsg.code_lt m), Option.some_bind,
    get16_put16 (StyxMsg.tag_lt m h), Option.some_bind]
  simpa using StyxMsg.decodeBody_encodeBody m [] h

/-- C3 witness: a Tclunk body decodes the same under a wildly wrong
size field. -/
theorem decode_body_ignores_size_field_witness :
    StyxMsg.decodeMsg
        (put32 999 ++ put8 (StyxMsg.Tclunk 7 5).code ++
         put16 (StyxMsg.Tclunk 7 5).tag ++
         StyxMsg.encodeBody (StyxMsg.Tclunk 7 5))
      = some (StyxMsg.Tclunk 7 5, []) :=
  decode_body_ignores_size_field (StyxMsg.Tclunk 7 5) (by decide) 999

/-- C4 counterexample: Tversion with msize 16384 and version "X" is
answered with msize 16384 and version "X": not the minimum of the
client msize and the server maximum (which is 0), and not the literal
"9P2000". -/
theorem tversion_echo_counterexample :
    serveStep mkNone statOfNone writeZero emptySession
        (.Tversion 0 16384 "X")
      = (.Rversion 0 16384 "X", emptySession, true) ∧
    ("X" : String) ≠ "9P2000" ∧
    (16384 : Nat) ≠ min 16384 MAX_MSG_SIZE := by
  refine ⟨rfl, by decide, by decide⟩

/-- C4 amended: the server echoes the client's msize and version
verbatim in Rversion, leaving the session unchanged. -/
theorem tversion_echoes_client (mk : String → Option Qid)
    (statOf : Qid → String → Option Stat)
    (writeF : Nat → Nat → List Nat → Int) (st : Session)
    (tag msize : Nat) (version : String) :
    serveStep mk statOf writeF st (.Tversion tag msize version)
      = (.Rversion tag msize version, st, true) := rfl

/-- C5 counterexample: a Tattach whose afid is 0 (not NOFID) against
the dict store is answered with Rattach carrying the root qid, not
with Rerror. -/
theorem tattach_afid_counterexample :
    (serveStep (DictStore.make_qid DictStore.sampleTree) statOfNone writeZero
        emptySession (.Tattach 1 0 0 "u" "a")).1
      = .Rattach 1 ⟨0x80, 0, 1⟩ ∧
    (0 : Nat) ≠ Styx.NOFID := by
  refine ⟨by decide, by decide⟩

/-- C5 amended: the Tattach handler never inspects afid; against the
dict store (whose root always exists) every Tattach, for every afid
value, is answered Rattach with the root qid, the root bound to fid. -/
theorem tattach_dict_ignores_afid (d : DictStore.DObj)
    (statOf : Qid → String → Option Stat)
    (writeF : Nat → Nat → List Nat → Int) (st : Session)
    (tag fid afid : Nat) (uname aname : String) :
    serveStep (DictStore.make_qid d) statOf writeF st
        (.Tattach tag fid afid uname aname)
      = (.Rattach tag ⟨if d.isDir then 0x80 else 0, 0, d.oid⟩,
         { set_qid_path st fid ⟨if d.isDir then 0x80 else 0, 0, d.oid⟩ "/"
             with root_fid := some fid },
         true) := by
  simp [serveStep, dispatch, handleTattach, get_root_qid,
    DictStore.make_qid_root]

/-- C6 counterexample: the dict store's write returns -2, and the
Twrite handler then replies Rerror "Failed to write data.", not
Rerror "Read only.". -/
theorem twrite_minus2_counterexample :
    handleTwrite DictStore.write 5 1 0 [104, 105]
      = .Rerror 5 "Failed to write data." ∧
    ("Failed to write data." : String) ≠ "Read only." := by
  refine ⟨by decide, by decide⟩

/-- C6 amended: the Twrite handler maps the store's count to the reply
as follows: -1 gives Rerror "Not a file."; any other count different
from len(data), including the dict store's -2, gives Rerror "Failed to
write data."; a count equal to len(data) gives Rwrite with that count. -/
theorem twrite_reply_mapping (writeF : Nat → Nat → List Nat → Int)
    (tag fid offset : Nat) (data : List Nat) :
    (writeF fid offset data = -1 →
      handleTwrite writeF tag fid offset data = .Rerror tag "Not a file.") ∧
    (writeF fid offset data ≠ -1 →
      writeF fid offset data ≠ (data.length : Int) →
      handleTwrite writeF tag fid offset data
        = .Rerror tag "Failed to write data.") ∧
    (writeF fid offset data = (data.length : Int) →
      handleTwrite writeF tag fid offset data = .Rwrite tag data.length) := by
  refine ⟨fun h => by simp [handleTwrite, h], fun h h2 => by
    simp [handleTwrite, h, h2], fun h => ?_⟩
  have hne : (data.length : Int) ≠ -1 := by omega
  simp [handleTwrite, h, hne]

/-- C6 witness: the mapping applied to the dict store's -2 at concrete
arguments. -/
theorem twrite_reply_mapping_witness :
    handleTwrite DictStore.write 6 2 0 [104]
      = .Rerror 6 "Failed to write data." :=
  (twrite_reply_mapping DictStore.write 6 2 0 [104]).2.1 (by decide) (by decide)

/-- C7: the codec cannot decode a Tflush message (type code 108): the
frame size 9, type 108, tag 3, oldtag 9 fails to decode because 108 is
not in MessageTypes, and no variant of the codec carries code 108 or
109, so the server's Tflush handler has no Rflush class to reply with. -/
theorem tflush_not_in_codec :
    StyxMsg.decodeMsg (put32 9 ++ put8 108 ++ put16 3 ++ put16 9) = none ∧
    ∀ m : StyxMsg, m.code ≠ 108 ∧ m.code ≠ 109 := by
  refine ⟨by decide, fun m => ?_⟩
  cases m <;> simp [StyxMsg.code]

/-- C8 counterexample: with in-use fids 0, 2, 3 and previous fid 2 the
allocator returns 4, although 1 is a smaller non-negative integer not
in the in-use set. -/
theorem next_fid_counterexample :
    (Client._next_fid {0, 2, 3} 2).1 = 4 ∧
    (1 : Nat) ∉ ({0, 2, 3} : Finset Nat) ∧ (1 : Nat) < 4 := by
  refine ⟨by decide, by decide, by decide⟩

/-- C8 amended: the allocator returns the smallest integer not in the
in-use set among those at or above its starting point, where the
starting point is fid + 1, reset to 0 when fid + 1 exceeds the number
of in-use fids; the result is never in use and is added to the set. -/
theorem next_fid_scan_spec (fids : Finset Nat) (fid : Nat) :
    ((Client._next_fid fids fid).1 ∉ fids) ∧
    ((Client._next_fid fids fid).2
      = insert (Client._next_fid fids fid).1 fids) ∧
    ((if fid + 1 > fids.card then 0 else fid + 1)
      ≤ (Client._next_fid fids fid).1) ∧
    (∀ j, (if fid + 1 > fids.card then 0 else fid + 1) ≤ j →
      j < (Client._next_fid fids fid).1 → j ∈ fids) := by
  have hx := Client.exists_free_within_card fids
    (if fid + 1 > fids.card then 0 else fid + 1)
  have hs := Client.scanFree_spec fids (fids.card + 1)
    (if fid + 1 > fids.card then 0 else fid + 1)
    (by obtain ⟨k, hk, hf⟩ := hx; exact ⟨k, by omega, hf⟩)
  exact ⟨hs.2.1, rfl, hs.1, hs.2.2⟩

/-- C8 witness: the allocated fid is fresh at a concrete state. -/
theorem next_fid_scan_spec_witness :
    (Client._next_fid {0, 2, 3} 2).1 ∉ ({0, 2, 3} : Finset Nat) :=
  (next_fid_scan_spec {0, 2, 3} 2).1

/-- C9: the encoded body of an Rstat message is the stat record
preceded by two 16-bit sizes, the wrapping size and the stat record's
own size, and the wrapping size exceeds the inner size by exactly 2. -/
theorem rstat_two_sizes (s : Stat) (tag : Nat)
    (h : (Stat.encodeFields s).length + 2 < 65536) :
    get16 (StyxMsg.encodeBody (.Rstat tag s))
      = some ((Stat.encodeFields s).length + 2, Stat.encode s) ∧
    get16 (Stat.encode s)
      = some ((Stat.encodeFields s).length, Stat.encodeFields s) ∧
    (Stat.encodeFields s).length + 2 - (Stat.encodeFields s).length = 2 := by
  have hlen : (Stat.encode s).length = (Stat.encodeFields s).length + 2 := by
    simp [Stat.encode, encode_data, put16]
  refine ⟨?_, ?_, by omega⟩
  · have hb : StyxMsg.encodeBody (.Rstat tag s)
        = put16 (Stat.encode s).length ++ Stat.encode s := rfl
    rw [hb, hlen, get16_put16 h]
  · have hb : Stat.encode s
        = put16 (Stat.encodeFields s).length ++ Stat.encodeFields s := rfl
    rw [hb, get16_put16 (by omega)]

/-- C9 witness: the two sizes at a concrete stat record. -/
theorem rstat_two_sizes_witness :
    get16 (StyxMsg.encodeBody (.Rstat 0 statW))
      = some ((Stat.encodeFields statW).length + 2, Stat.encode statW) ∧
    get16 (Stat.encode statW)
      = some ((Stat.encodeFields statW).length, Stat.encodeFields statW) ∧
    (Stat.encodeFields statW).length + 2 - (Stat.encodeFields statW).length
      = 2 :=
  rstat_two_sizes statW 0 (by decide)

/-- C10: a T-message naming a fid with no entry in the fid table does
not crash the server and is not reported as not-found: the store's
dict lookup raises KeyError, the serve loop's KeyError handler (shared
with the unknown-message-code path) replies Rerror "Unsupported
message.", the store state is unchanged and the session continues. -/
theorem unbound_fid_unsupported_message (mk : String → Option Qid)
    (statOf : Qid → String → Option Stat)
    (writeF : Nat → Nat → List Nat → Int) (st : Session) (fid : Nat)
    (h : st.fids fid = none) :
    (∀ tag newfid wname,
      serveStep mk statOf writeF st (.Twalk tag fid newfid wname)
        = (.Rerror tag "Unsupported message.", st, true)) ∧
    (∀ tag mode, serveStep mk statOf writeF st (.Topen tag fid mode)
        = (.Rerror tag "Unsupported message.", st, true)) ∧
    (∀ tag, serveStep mk statOf writeF st (.Tstat tag fid)
        = (.Rerror tag "Unsupported message.", st, true)) ∧
    (∀ tag, serveStep mk statOf writeF st (.Tclunk tag fid)
        = (.Rerror tag "Unsupported message.", st, true)) := by
  refine ⟨fun tag newfid wname => ?_, fun tag mode => ?_, fun tag => ?_,
    fun tag => ?_⟩ <;>
    simp [serveStep, dispatch, handleTwalk, handleTopen, handleTstat,
      handleTclunk, get_qid_path, free_qid_path, h, Bind.bind, Except.bind,
      TMsg.tag]

/-- C10 witness: Tstat on the never-bound fid 5 of a fresh session. -/
theorem unbound_fid_unsupported_message_witness :
    serveStep mkNone statOfNone writeZero emptySession (.Tstat 3 5)
      = (.Rerror 3 "Unsupported message.", emptySession, true) :=
  (unbound_fid_unsupported_message mkNone statOfNone writeZero emptySession 5
    rfl).2.2.1 3

/-- C2: the Twalk handler resolves each wname element in order starting
from the path bound to fid; on the first element whose qid cannot be
made, it replies Rwalk with the partial qid list when at least one qid
was produced (leaving the fid table unchanged, so newfid is not bound)
and Rerror "Not found." when none was; on full success it binds newfid
to the final qid and path.  Hence whenever the Rwalk reply carries
fewer qids than wname has elements, the fid table is unchanged. -/
theorem twalk_first_failure_and_binding
    (mk : String → Option Qid) (st : Session) (tag fid newfid : Nat)
    (wname : List String) (q : Qid) (p : String)
    (h : st.fids fid = some (q, p)) :
    (handleTwalk mk st tag fid newfid wname =
      (if (walkQidsSpec mk (p.splitOn "/") wname).length = wname.length then
        Except.ok (Reply.Rwalk tag (walkQidsSpec mk (p.splitOn "/") wname),
          set_qid_path st newfid
            (lastD (walkQidsSpec mk (p.splitOn "/") wname) q)
            (String.intercalate "/"
              (wname.foldl walkStepPath (p.splitOn "/"))))
      else if (walkQidsSpec mk (p.splitOn "/") wname).length > 0 then
        Except.ok (Reply.Rwalk tag (walkQidsSpec mk (p.splitOn "/") wname), st)
      else Except.ok (Reply.Rerror tag "Not found.", st))) ∧
    (∀ qids st',
      handleTwalk mk st tag fid newfid wname
        = Except.ok (Reply.Rwalk tag qids, st') →
      qids.length < wname.length → st' = st) := by
  have hmain : handleTwalk mk st tag fid newfid wname =
      (if (walkQidsSpec mk (p.splitOn "/") wname).length = wname.length then
        Except.ok (Reply.Rwalk tag (walkQidsSpec mk (p.splitOn "/") wname),
          set_qid_path st newfid
            (lastD (walkQidsSpec mk (p.splitOn "/") wname) q)
            (String.intercalate "/"
              (wname.foldl walkStepPath (p.splitOn "/"))))
      else if (walkQidsSpec mk (p.splitOn "/") wname).length > 0 then
        Except.ok (Reply.Rwalk tag (walkQidsSpec mk (p.splitOn "/") wname), st)
      else Except.ok (Reply.Rerror tag "Not found.", st)) := by
    simp only [handleTwalk, get_qid_path, h, Bind.bind, Except.bind]
    rw [walkLoop_eq mk wname (p.splitOn "/") q []]
    simp only [List.nil_append]
    split_ifs with h1 h2 <;> rfl
  refine ⟨hmain, fun qids st' heq hlt => ?_⟩
  rw [hmain] at heq
  split_ifs at heq with h1 h2
  · simp only [Except.ok.injEq, Prod.mk.injEq, Reply.Rwalk.injEq,
      true_and] at heq
    have h4 : qids.length = wname.length := by rw [← heq.1]; exact h1
    omega
  · simp only [Except.ok.injEq, Prod.mk.injEq] at heq
    exact heq.2.symm
  · simp at heq

/-- C2 witness: the characterization at a one-element walk from the
root of a one-entry store. -/
theorem twalk_first_failure_and_binding_witness :
    handleTwalk mkW stW 5 0 1 ["a"] =
      (if (walkQidsSpec mkW ("".splitOn "/") ["a"]).length
          = (["a"] : List String).length then
        Except.ok (Reply.Rwalk 5 (walkQidsSpec mkW ("".splitOn "/") ["a"]),
          set_qid_path stW 1
            (lastD (walkQidsSpec mkW ("".splitOn "/") ["a"]) ⟨0x80, 0, 1⟩)
            (String.intercalate "/"
              ((["a"] : List String).foldl walkStepPath ("".splitOn "/"))))
      else if (walkQidsSpec mkW ("".splitOn "/") ["a"]).length > 0 then
        Except.ok (Reply.Rwalk 5 (walkQidsSpec mkW ("".splitOn "/") ["a"]),
          stW)
      else Except.ok (Reply.Rerror 5 "Not found.", stW)) :=
  (twalk_first_failure_and_binding mkW stW 5 0 1 ["a"] ⟨0x80, 0, 1⟩ "" rfl).1
